import Mathlib

/-!
Verification of the query-serving core of the sharded key-value service.

This file shallowly embeds the relevant C++ code as Lean definitions:

* components/udf/noop_udf_client.cc: UdfClientImpl (SetCodeObject, ExecuteCode
  argument serialization);
* public/data_loading/readers/riegeli_stream_io.h: RiegeliStreamReader and
  ConcurrentStreamRecordReader (BuildShards, ReadStreamRecords,
  ReadShardRecords);
* components/udf/hooks/get_values_hook.cc: GetValuesHookImpl (FinishInit and
  the call operator);
* components/data_server/request_handler/get_values_adapter.cc:
  ProcessKeyValues;
* the V2 request handler (GetValuesV2Handler), whose implementation is not in
  the source tree, is modelled from the specification.

Machine integers (int64_t positions, sizes, logical commit times) are modelled
as Int where sign matters and as Nat for byte positions and sizes, which are
nonnegative in all reachable states; no arithmetic here approaches 2^63, so
overflow is not modelled.
-/

/-- Model of absl::Status: a canonical error code plus a message.
Code 0 is OK, 3 is InvalidArgument, 13 is Internal. -/
structure AbslStatus where
  code : Nat
  message : String
deriving Repr, DecidableEq

def AbslStatus.ok : AbslStatus := ⟨0, ""⟩

def AbslStatus.isOk (s : AbslStatus) : Bool := s.code == 0

def AbslStatus.invalidArgument (m : String) : AbslStatus := ⟨3, m⟩

def AbslStatus.internal (m : String) : AbslStatus := ⟨13, m⟩

/-- absl::Status::Update(b) on a: keeps a when a is already an error,
otherwise becomes b. -/
def statusUpdate (a b : AbslStatus) : AbslStatus := if a.isOk then b else a

/-! ## UDF client: SetCodeObject (noop_udf_client.cc, UdfClientImpl) -/

/-- CodeConfig from components/udf/code_config.h as consumed by
UdfClientImpl::SetCodeObject. logical_commit_time and version are int64_t. -/
structure CodeConfig where
  js : String
  udf_handler_name : String
  logical_commit_time : Int
  version : Int
deriving Repr, DecidableEq

/-- The mutable state of UdfClientImpl relevant to SetCodeObject:
handler_name_, logical_commit_time_, version_. -/
structure UdfClientState where
  handler_name : String
  logical_commit_time : Int
  version : Int
deriving Repr, DecidableEq

/-- Member initializers of UdfClientImpl: handler_name_ empty,
logical_commit_time_ = -1, version_ = 1. -/
def initialUdfClientState : UdfClientState :=
  { handler_name := "", logical_commit_time := -1, version := 1 }

/-- Outcome of the Roma LoadCodeObj call inside SetCodeObject:
the send itself can fail, the notification can time out after 1 s, the
load callback can report an error, or the load succeeds. -/
inductive LoadOutcome where
  | ok
  | sendError (s : AbslStatus)
  | timeout
  | loadError (s : AbslStatus)
deriving Repr, DecidableEq

/-- The state SetCodeObject installs on a successful load: the code object's
handler name, logical commit time and version. -/
def installedState (c : CodeConfig) : UdfClientState :=
  { handler_name := c.udf_handler_name,
    logical_commit_time := c.logical_commit_time,
    version := c.version }

/-- UdfClientImpl::SetCodeObject. If logical_commit_time_ >= the new config's
logical commit time, returns OkStatus without touching state. Otherwise it
loads the code object and, on success, updates handler_name_,
logical_commit_time_ and version_. -/
def setCodeObject (st : UdfClientState) (c : CodeConfig) (load : LoadOutcome) :
    AbslStatus × UdfClientState :=
  if st.logical_commit_time ≥ c.logical_commit_time then
    (AbslStatus.ok, st)
  else
    match load with
    | LoadOutcome.ok => (AbslStatus.ok, installedState c)
    | LoadOutcome.sendError s => (s, st)
    | LoadOutcome.timeout =>
        (AbslStatus.internal "Timed out setting UDF code object.", st)
    | LoadOutcome.loadError s => (s, st)

/-- C1: set_code_object installs the code object exactly when its logical
commit time is strictly greater than the current one; a stale config is a
no-op that still returns OK; after installing c and then calling with a
config whose LCT is not larger, the installed handler is still c's. -/
theorem setCodeObject_lct_gate (st : UdfClientState) (c c₂ : CodeConfig)
    (load load₂ : LoadOutcome) :
    (c.logical_commit_time ≤ st.logical_commit_time →
      setCodeObject st c load = (AbslStatus.ok, st)) ∧
    (load = LoadOutcome.ok → st.logical_commit_time < c.logical_commit_time →
      setCodeObject st c load = (AbslStatus.ok, installedState c)) ∧
    (load = LoadOutcome.ok → st.logical_commit_time < c.logical_commit_time →
      c₂.logical_commit_time ≤ c.logical_commit_time →
      ((setCodeObject (setCodeObject st c load).2 c₂ load₂).2).handler_name =
        c.udf_handler_name ∧
      (setCodeObject (setCodeObject st c load).2 c₂ load₂).1 = AbslStatus.ok) := by
  refine ⟨fun h => ?_, fun hl h => ?_, fun hl h h₂ => ?_⟩
  · unfold setCodeObject
    rw [if_pos (by omega)]
  · subst hl
    unfold setCodeObject
    rw [if_neg (by omega)]
  · subst hl
    have h1 : setCodeObject st c LoadOutcome.ok = (AbslStatus.ok, installedState c) := by
      unfold setCodeObject
      rw [if_neg (by omega)]
    rw [h1]
    have hc : (installedState c).logical_commit_time ≥ c₂.logical_commit_time := h₂
    unfold setCodeObject
    rw [if_pos hc]
    exact ⟨rfl, rfl⟩

/-- Witness for setCodeObject_lct_gate at a concrete state and configs. -/
theorem setCodeObject_lct_gate_witness :
    ((⟨"b", "B", 3, 1⟩ : CodeConfig).logical_commit_time ≤
        (installedState ⟨"a", "A", 5, 1⟩).logical_commit_time →
      setCodeObject (installedState ⟨"a", "A", 5, 1⟩) ⟨"b", "B", 3, 1⟩
          LoadOutcome.ok =
        (AbslStatus.ok, installedState ⟨"a", "A", 5, 1⟩)) ∧
    setCodeObject initialUdfClientState ⟨"a", "A", 5, 1⟩ LoadOutcome.ok =
      (AbslStatus.ok, installedState ⟨"a", "A", 5, 1⟩) ∧
    ((setCodeObject
        (setCodeObject initialUdfClientState ⟨"a", "A", 5, 1⟩
          LoadOutcome.ok).2
        ⟨"b", "B", 3, 1⟩ LoadOutcome.ok).2).handler_name = "A" := by
  refine ⟨?_, ?_, ?_⟩
  · exact (setCodeObject_lct_gate (installedState ⟨"a", "A", 5, 1⟩)
      ⟨"b", "B", 3, 1⟩ ⟨"b", "B", 3, 1⟩ LoadOutcome.ok LoadOutcome.ok).1
  · exact (setCodeObject_lct_gate initialUdfClientState ⟨"a", "A", 5, 1⟩
      ⟨"b", "B", 3, 1⟩ LoadOutcome.ok LoadOutcome.ok).2.1 rfl (by decide)
  · exact ((setCodeObject_lct_gate initialUdfClientState ⟨"a", "A", 5, 1⟩
      ⟨"b", "B", 3, 1⟩ LoadOutcome.ok LoadOutcome.ok).2.2 rfl (by decide)
      (by decide)).1

/-- C10: a fresh UdfClientImpl has logical_commit_time_ = -1, so the first
set_code_object installs any config with nonnegative LCT, while a config with
LCT at most -1 is never installed yet the call returns OK. -/
theorem initial_lct_sentinel :
    initialUdfClientState.logical_commit_time = -1 ∧
    (∀ c : CodeConfig, 0 ≤ c.logical_commit_time →
      setCodeObject initialUdfClientState c LoadOutcome.ok =
        (AbslStatus.ok, installedState c)) ∧
    (∀ (c : CodeConfig) (load : LoadOutcome), c.logical_commit_time ≤ -1 →
      setCodeObject initialUdfClientState c load =
        (AbslStatus.ok, initialUdfClientState)) := by
  refine ⟨rfl, fun c hc => ?_, fun c load hc => ?_⟩
  · have h : initialUdfClientState.logical_commit_time < c.logical_commit_time := by
      simp only [initialUdfClientState]
      omega
    simpa using (setCodeObject_lct_gate initialUdfClientState c c
      LoadOutcome.ok LoadOutcome.ok).2.1 rfl h
  · have h : c.logical_commit_time ≤ initialUdfClientState.logical_commit_time := by
      simp only [initialUdfClientState]
      omega
    exact (setCodeObject_lct_gate initialUdfClientState c c load load).1 h

/-- Witness for initial_lct_sentinel at concrete configs. -/
theorem initial_lct_sentinel_witness :
    setCodeObject initialUdfClientState ⟨"js", "H", 0, 1⟩ LoadOutcome.ok =
      (AbslStatus.ok, installedState ⟨"js", "H", 0, 1⟩) ∧
    setCodeObject initialUdfClientState ⟨"js", "H", -1, 1⟩ LoadOutcome.ok =
      (AbslStatus.ok, initialUdfClientState) := by
  exact ⟨initial_lct_sentinel.2.1 ⟨"js", "H", 0, 1⟩ (by decide),
    initial_lct_sentinel.2.2 ⟨"js", "H", -1, 1⟩ LoadOutcome.ok (by decide)⟩

/-! ## Concurrent stream record reader (riegeli_stream_io.h) -/

/-- ConcurrentStreamRecordReader::ShardRange: a byte range of the stream read
by one shard task. Positions are int64_t in the source and nonnegative in all
reachable states. -/
structure ShardRange where
  start_pos : Nat
  end_pos : Nat
deriving Repr, DecidableEq

/-- ConcurrentStreamRecordReader::ShardResult: stats returned by one shard
reading task, used for the gap correctness check. -/
structure ShardResult where
  first_record_pos : Nat
  next_shard_first_record_pos : Nat
  num_records_read : Nat
deriving Repr, DecidableEq

/-- Exact ceiling of s / w, the value of std::ceil((double)s / w) for the
sizes in range. -/
def ceilDiv (s w : Nat) : Nat := (s + w - 1) / w

/-- The shard construction loop of BuildShards: starting at startPos, emit
ranges whose end is min(start + shardSize, streamSize) and whose successor
starts one byte past the previous end, while start < streamSize. -/
def buildShardRanges (streamSize shardSize startPos : Nat) : List ShardRange :=
  if startPos < streamSize then
    let endPos := min (startPos + shardSize) streamSize
    ⟨startPos, endPos⟩ :: buildShardRanges streamSize shardSize (endPos + 1)
  else []
termination_by streamSize - startPos
decreasing_by omega

/-- ConcurrentStreamRecordReader::BuildShards: computes
shard_size = min(stream_size, max(ceil(stream_size / num_workers),
min_shard_size)), builds the ranges, and fails with Internal unless the
result is nonempty and ends exactly at stream_size. The probe-stream size
measurement is passed in as streamSize. -/
def buildShards (streamSize numWorkers minShardSize : Nat) :
    Except AbslStatus (List ShardRange) :=
  if numWorkers < 1 then
    Except.error (AbslStatus.invalidArgument
      ("Num worker threads " ++ toString numWorkers ++ " must be at least 1."))
  else
    let shardSize := min streamSize (max (ceilDiv streamSize numWorkers) minShardSize)
    let shards := buildShardRanges streamSize shardSize 0
    if shards.isEmpty ∨ shards.getLast?.map ShardRange.end_pos ≠ some streamSize then
      Except.error (AbslStatus.internal "Failed to generate shards.")
    else
      Except.ok shards

/-- Every range emitted by the loop has end = min(start + shardSize, streamSize). -/
theorem buildShardRanges_end_eq (streamSize shardSize startPos : Nat) :
    ∀ r, r ∈ buildShardRanges streamSize shardSize startPos →
      r.end_pos = min (r.start_pos + shardSize) streamSize := by
  induction startPos using buildShardRanges.induct streamSize shardSize with
  | case1 startPos h endPos ih =>
    intro r hr
    rw [buildShardRanges, if_pos h] at hr
    rcases List.mem_cons.mp hr with h1 | h1
    · subst h1; rfl
    · exact ih r h1
  | case2 startPos h =>
    intro r hr
    rw [buildShardRanges, if_neg h] at hr
    exact absurd hr (List.not_mem_nil r)

/-- The head of the loop's output starts at startPos when startPos < streamSize. -/
theorem buildShardRanges_head (streamSize shardSize startPos : Nat) :
    (buildShardRanges streamSize shardSize startPos).head?.map ShardRange.start_pos =
      if startPos < streamSize then some startPos else none := by
  rw [buildShardRanges]
  by_cases h : startPos < streamSize
  · rw [if_pos h, if_pos h]
    rfl
  · rw [if_neg h, if_neg h]
    rfl

/-- Consecutive ranges: each range starts one byte past the previous end. -/
theorem buildShardRanges_chain (streamSize shardSize startPos : Nat) :
    List.Chain' (fun a b => b.start_pos = a.end_pos + 1)
      (buildShardRanges streamSize shardSize startPos) := by
  induction startPos using buildShardRanges.induct streamSize shardSize with
  | case1 startPos h endPos ih =>
    rw [buildShardRanges, if_pos h]
    refine List.chain'_cons'.mpr ⟨?_, ih⟩
    intro y hy
    have hh := buildShardRanges_head streamSize shardSize
      (min (startPos + shardSize) streamSize + 1)
    rw [hy] at hh
    by_cases h2 : min (startPos + shardSize) streamSize + 1 < streamSize
    · rw [if_pos h2] at hh
      simpa using hh
    · rw [if_neg h2] at hh
      simp at hh
  | case2 startPos h =>
    rw [buildShardRanges, if_neg h]
    exact List.chain'_nil

/-- C3: BuildShards uses shard_size = min(S, max(ceil(S / W), M)); the ranges
start at 0, each ends at min(start + shard_size, S), each subsequent range
starts one byte past the previous end; the result is the range list when it is
nonempty and its final range ends exactly at S, and otherwise (in particular
for S = 0) the Internal error is returned. -/
theorem buildShards_spec (S W M : Nat) (hW : 1 ≤ W) :
    (buildShards S W M =
      if (buildShardRanges S (min S (max (ceilDiv S W) M)) 0).isEmpty ∨
          (buildShardRanges S (min S (max (ceilDiv S W) M)) 0).getLast?.map
            ShardRange.end_pos ≠ some S then
        Except.error (AbslStatus.internal "Failed to generate shards.")
      else Except.ok (buildShardRanges S (min S (max (ceilDiv S W) M)) 0)) ∧
    (∀ r ∈ buildShardRanges S (min S (max (ceilDiv S W) M)) 0,
      r.end_pos = min (r.start_pos + min S (max (ceilDiv S W) M)) S) ∧
    List.Chain' (fun a b => b.start_pos = a.end_pos + 1)
      (buildShardRanges S (min S (max (ceilDiv S W) M)) 0) ∧
    (buildShardRanges S (min S (max (ceilDiv S W) M)) 0).head?.map
      ShardRange.start_pos = (if 0 < S then some 0 else none) ∧
    (S = 0 → buildShards S W M =
      Except.error (AbslStatus.internal "Failed to generate shards.")) := by
  have hmain : buildShards S W M =
      if (buildShardRanges S (min S (max (ceilDiv S W) M)) 0).isEmpty ∨
          (buildShardRanges S (min S (max (ceilDiv S W) M)) 0).getLast?.map
            ShardRange.end_pos ≠ some S then
        Except.error (AbslStatus.internal "Failed to generate shards.")
      else Except.ok (buildShardRanges S (min S (max (ceilDiv S W) M)) 0) := by
    unfold buildShards
    rw [if_neg (by omega)]
  refine ⟨hmain, buildShardRanges_end_eq S (min S (max (ceilDiv S W) M)) 0,
    buildShardRanges_chain S (min S (max (ceilDiv S W) M)) 0,
    buildShardRanges_head S (min S (max (ceilDiv S W) M)) 0, ?_⟩
  intro hS
  subst hS
  rw [hmain]
  have h0 : buildShardRanges 0 (min 0 (max (ceilDiv 0 W) M)) 0 = [] := by
    rw [buildShardRanges]
    norm_num
  rw [h0]
  rw [if_pos (Or.inl (by simp))]

/-- Witness for buildShards_spec: with S = 10, W = 2, M = 3 the shards are
built and end at 10; with S = 0 the Internal error is returned. -/
theorem buildShards_spec_witness :
    buildShards 10 2 3 = Except.ok [⟨0, 5⟩, ⟨6, 10⟩] ∧
    buildShards 0 2 3 = Except.error (AbslStatus.internal "Failed to generate shards.") := by
  constructor
  · have h := (buildShards_spec 10 2 3 (by decide)).1
    rw [show min 10 (max (ceilDiv 10 2) 3) = 5 from by decide] at h
    rw [h]
    simp [buildShardRanges]
  · exact (buildShards_spec 0 2 3 (by decide)).2.2.2.2 rfl

/-- The message of the gap-check failure in ReadStreamRecords, formed by
StrFormat from the two byte positions. -/
def skippedRecordsMsg (x y : Nat) : String :=
  "Skipped some records between byte=" ++ toString x ++ " and byte=" ++
    toString y ++ "."

/-- ShardResult order check: the current shard's first record begins no later
than the position at which the previous shard stopped reading. -/
def shardPairOk (prev curr : ShardResult) : Prop :=
  curr.first_record_pos ≤ prev.next_shard_first_record_pos

instance (prev curr : ShardResult) : Decidable (shardPairOk prev curr) :=
  inferInstanceAs (Decidable (curr.first_record_pos ≤ prev.next_shard_first_record_pos))

/-- The result-joining loop of ConcurrentStreamRecordReader::ReadStreamRecords
from the second task on: a failed task aborts with its status; a gap
(prev.next_shard_first_record_pos < curr.first_record_pos) aborts with the
Internal skipped-records error; otherwise the scan continues. -/
def joinShardResults (prev : ShardResult) :
    List (Except AbslStatus ShardResult) → AbslStatus
  | [] => AbslStatus.ok
  | Except.error e :: _ => e
  | Except.ok curr :: rest =>
    if prev.next_shard_first_record_pos < curr.first_record_pos then
      AbslStatus.internal (skippedRecordsMsg prev.next_shard_first_record_pos
        curr.first_record_pos)
    else joinShardResults curr rest

/-- ConcurrentStreamRecordReader::ReadStreamRecords after the shard tasks have
completed, as a function of the per-task outcomes in shard order: the first
task's failure aborts, then the remaining results are scanned pairwise. -/
def readStreamRecordsResult : List (Except AbslStatus ShardResult) → AbslStatus
  | [] => AbslStatus.ok
  | Except.error e :: _ => e
  | Except.ok first :: rest => joinShardResults first rest

/-- AbslStatus.internal is never OK. -/
theorem AbslStatus.internal_ne_ok (m : String) : AbslStatus.internal m ≠ AbslStatus.ok := by
  intro h
  have h2 : (AbslStatus.internal m).code = AbslStatus.ok.code := congrArg AbslStatus.code h
  simp [AbslStatus.internal, AbslStatus.ok] at h2

/-- The pairwise scan succeeds exactly when every adjacent pair is in order. -/
theorem joinShardResults_ok_iff (rest : List ShardResult) :
    ∀ prev, joinShardResults prev (rest.map Except.ok) = AbslStatus.ok ↔
      List.Chain' shardPairOk (prev :: rest) := by
  induction rest with
  | nil =>
    intro prev
    simp [joinShardResults]
  | cons curr rs ih =>
    intro prev
    rw [List.map_cons, List.chain'_cons]
    simp only [joinShardResults]
    by_cases h : prev.next_shard_first_record_pos < curr.first_record_pos
    · rw [if_pos h]
      constructor
      · intro he
        exact absurd he (AbslStatus.internal_ne_ok _)
      · rintro ⟨h1, -⟩
        exact absurd h (not_lt.mpr h1)
    · rw [if_neg h]
      rw [ih curr]
      have hpc : shardPairOk prev curr := not_lt.mp h
      simp [hpc]

/-- A failing pairwise scan returns the Internal skipped-records error of a
violating adjacent pair. -/
theorem joinShardResults_err (rest : List ShardResult) :
    ∀ prev, joinShardResults prev (rest.map Except.ok) ≠ AbslStatus.ok →
      ∃ pre post p c, prev :: rest = pre ++ p :: c :: post ∧
        p.next_shard_first_record_pos < c.first_record_pos ∧
        joinShardResults prev (rest.map Except.ok) =
          AbslStatus.internal (skippedRecordsMsg p.next_shard_first_record_pos
            c.first_record_pos) := by
  induction rest with
  | nil =>
    intro prev hne
    exact absurd rfl hne
  | cons curr rs ih =>
    intro prev hne
    rw [List.map_cons] at hne
    rw [List.map_cons]
    simp only [joinShardResults] at hne
    simp only [joinShardResults]
    by_cases h : prev.next_shard_first_record_pos < curr.first_record_pos
    · refine ⟨[], rs, prev, curr, rfl, h, ?_⟩
      rw [if_pos h]
    · rw [if_neg h] at hne
      rw [if_neg h]
      obtain ⟨pre, post, p, c, heq, hlt, hval⟩ := ih curr hne
      exact ⟨prev :: pre, post, p, c, by rw [List.cons_append, ← heq], hlt, hval⟩

/-- C2: with every shard task succeeding, ReadStreamRecords returns OK exactly
when every adjacent pair of shard results (in shard order) satisfies
prev.next_shard_first_record_pos >= curr.first_record_pos; when it fails, the
status is Internal with the skipped-records message naming the byte positions
of a violating adjacent pair. -/
theorem readStreamRecords_gap_check (first : ShardResult) (rest : List ShardResult) :
    (readStreamRecordsResult ((first :: rest).map Except.ok) = AbslStatus.ok ↔
      List.Chain' shardPairOk (first :: rest)) ∧
    (readStreamRecordsResult ((first :: rest).map Except.ok) ≠ AbslStatus.ok →
      ∃ pre post p c, first :: rest = pre ++ p :: c :: post ∧
        p.next_shard_first_record_pos < c.first_record_pos ∧
        readStreamRecordsResult ((first :: rest).map Except.ok) =
          AbslStatus.internal (skippedRecordsMsg p.next_shard_first_record_pos
            c.first_record_pos)) := by
  have hred : readStreamRecordsResult ((first :: rest).map Except.ok) =
      joinShardResults first (rest.map Except.ok) := by
    rw [List.map_cons]
    rfl
  rw [hred]
  exact ⟨joinShardResults_ok_iff rest first, joinShardResults_err rest first⟩

/-- Witness for readStreamRecords_gap_check: shard 0 stops at byte 1000 while
shard 1 first reads at byte 1100, producing the Internal skipped-records
error; and an adjacent in-order list returns OK. -/
theorem readStreamRecords_gap_check_witness :
    (∃ pre post p c,
        ([⟨0, 1000, 5⟩, ⟨1100, 2000, 3⟩] : List ShardResult) = pre ++ p :: c :: post ∧
        p.next_shard_first_record_pos < c.first_record_pos ∧
        readStreamRecordsResult (([⟨0, 1000, 5⟩, ⟨1100, 2000, 3⟩] :
            List ShardResult).map Except.ok) =
          AbslStatus.internal (skippedRecordsMsg p.next_shard_first_record_pos
            c.first_record_pos)) ∧
    readStreamRecordsResult (([⟨0, 1000, 5⟩, ⟨1000, 2000, 3⟩] :
        List ShardResult).map Except.ok) = AbslStatus.ok := by
  constructor
  · exact (readStreamRecords_gap_check ⟨0, 1000, 5⟩ [⟨1100, 2000, 3⟩]).2 (by decide)
  · exact (readStreamRecords_gap_check ⟨0, 1000, 5⟩ [⟨1000, 2000, 3⟩]).1.mpr
      (by norm_num [List.chain'_cons, List.chain'_singleton, shardPairOk])

/-! ## Callback failure semantics (RiegeliStreamReader and ReadShardRecords) -/

/-- The observable behavior of the riegeli RecordReader during a sequential
read: the records ReadRecord yields in order, and reader_.status() once
ReadRecord returns false. -/
structure SequentialStream (α : Type) where
  records : List α
  readerStatus : AbslStatus

/-- RiegeliStreamReader::ReadStreamRecords: calls the callback once per
record, merging callback failures into overall_status with Update;
overall_status is only logged, and the reader's status is returned. The
result is (returned status, records delivered to the callback, logged
overall status). -/
def riegeliReadStreamRecords {α : Type} (stream : SequentialStream α)
    (callback : α → AbslStatus) : AbslStatus × List α × AbslStatus :=
  (stream.readerStatus, stream.records,
    stream.records.foldl (fun acc r => statusUpdate acc (callback r)) AbslStatus.ok)

/-- The observable behavior of the seekable RecordReader opened by one shard
task: the Seek outcome, the position after the seek, the stream's remaining
records each paired with the reader position after reading it, and the reader
status after the read loop. -/
structure ShardStream (α : Type) where
  seekError : Option AbslStatus
  seekPos : Nat
  records : List (α × Nat)
  readerStatus : AbslStatus

/-- The read loop of ReadShardRecords: while next_record_pos is at most
end_pos and a record is available, deliver it to the callback (merging
failures into overall_status) and advance. Returns (next_record_pos,
num_records_read, overall callback status, delivered records). -/
def readShardLoop {α : Type} (callback : α → AbslStatus) (endPos : Nat) :
    Nat → List (α × Nat) → Nat × Nat × AbslStatus × List α
  | pos, [] => (pos, 0, AbslStatus.ok, [])
  | pos, (r, rpos) :: rest =>
    if pos ≤ endPos then
      let s := callback r
      let t := readShardLoop callback endPos rpos rest
      (t.1, t.2.1 + 1, statusUpdate s t.2.2.1, r :: t.2.2.2)
    else (pos, 0, AbslStatus.ok, [])

/-- ConcurrentStreamRecordReader::ReadShardRecords: a failed seek returns the
reader's status; otherwise the shard is read, callback failures are only
logged, and a reader failure after the loop is the task's error. Returns the
task outcome and the records delivered to the callback. -/
def readShardRecords {α : Type} (stream : ShardStream α) (shard : ShardRange)
    (callback : α → AbslStatus) : Except AbslStatus ShardResult × List α :=
  match stream.seekError with
  | some e => (Except.error e, [])
  | none =>
    let t := readShardLoop callback shard.end_pos stream.seekPos stream.records
    if stream.readerStatus.isOk then
      (Except.ok { first_record_pos := stream.seekPos,
                   next_shard_first_record_pos := t.1,
                   num_records_read := t.2.1 }, t.2.2.2)
    else (Except.error stream.readerStatus, t.2.2.2)

/-- Everything the shard read loop produces apart from the logged overall
status is independent of the callback. -/
theorem readShardLoop_callback_independent {α : Type} (endPos : Nat)
    (callback callback' : α → AbslStatus) :
    ∀ (recs : List (α × Nat)) (pos : Nat),
      (readShardLoop callback endPos pos recs).1 =
        (readShardLoop callback' endPos pos recs).1 ∧
      (readShardLoop callback endPos pos recs).2.1 =
        (readShardLoop callback' endPos pos recs).2.1 ∧
      (readShardLoop callback endPos pos recs).2.2.2 =
        (readShardLoop callback' endPos pos recs).2.2.2 := by
  intro recs
  induction recs with
  | nil =>
    intro pos
    exact ⟨rfl, rfl, rfl⟩
  | cons hd rest ih =>
    intro pos
    obtain ⟨r, rpos⟩ := hd
    simp only [readShardLoop]
    by_cases h : pos ≤ endPos
    · rw [if_pos h, if_pos h]
      obtain ⟨h1, h2, h3⟩ := ih rpos
      exact ⟨h1, by rw [h2], by rw [h3]⟩
    · rw [if_neg h, if_neg h]
      exact ⟨rfl, rfl, rfl⟩

/-- A chain-respecting prefix of successful shard results followed by a failed
task makes the join abort with that task's error. -/
theorem joinShardResults_abort (e : AbslStatus)
    (post : List (Except AbslStatus ShardResult)) :
    ∀ (ps : List ShardResult) (p : ShardResult), List.Chain' shardPairOk (p :: ps) →
      joinShardResults p (ps.map Except.ok ++ Except.error e :: post) = e := by
  intro ps
  induction ps with
  | nil =>
    intro p _
    rfl
  | cons c cs ih =>
    intro p hchain
    rw [List.chain'_cons] at hchain
    rw [List.map_cons, List.cons_append]
    simp only [joinShardResults]
    rw [if_neg (not_lt.mpr hchain.1)]
    exact ih c hchain.2

/-- C6: a non-OK callback status never makes ReadStreamRecords fail or stop:
the sequential reader delivers every record and returns the reader's status
whatever the callback returns; a shard task's outcome and delivered records
are independent of the callback; and a shard task failure (a reader error)
aborts the whole concurrent read with that error. -/
theorem callback_failures_do_not_abort {α : Type} (stream : SequentialStream α)
    (sh : ShardStream α) (shard : ShardRange) (cb cb' : α → AbslStatus)
    (pre : List ShardResult) (e : AbslStatus)
    (post : List (Except AbslStatus ShardResult)) :
    ((riegeliReadStreamRecords stream cb).1 = stream.readerStatus ∧
      (riegeliReadStreamRecords stream cb).2.1 = stream.records) ∧
    ((readShardRecords sh shard cb).1 = (readShardRecords sh shard cb').1 ∧
      (readShardRecords sh shard cb).2 = (readShardRecords sh shard cb').2) ∧
    (List.Chain' shardPairOk pre →
      readStreamRecordsResult (pre.map Except.ok ++ Except.error e :: post) = e) := by
  refine ⟨⟨rfl, rfl⟩, ?_, ?_⟩
  · obtain ⟨seekError, seekPos, records, readerStatus⟩ := sh
    cases seekError with
    | some err => exact ⟨rfl, rfl⟩
    | none =>
      obtain ⟨h1, h2, h3⟩ := readShardLoop_callback_independent shard.end_pos cb cb'
        records seekPos
      simp only [readShardRecords]
      rw [h1, h2, h3]
      exact ⟨rfl, rfl⟩
  · intro hchain
    match pre with
    | [] => rfl
    | p :: ps =>
      rw [List.map_cons, List.cons_append]
      show joinShardResults p (ps.map Except.ok ++ Except.error e :: post) = e
      exact joinShardResults_abort e post ps p hchain

/-- Witness for callback_failures_do_not_abort: an always-failing callback
still yields the reader's OK status and full delivery, the shard task result
matches the one under an always-OK callback, and an error task after one
in-order successful shard aborts the read with that error. -/
theorem callback_failures_do_not_abort_witness :
    ((riegeliReadStreamRecords ⟨["r1", "r2"], AbslStatus.ok⟩
        (fun _ => AbslStatus.internal "cb failed")).1 = AbslStatus.ok ∧
      (riegeliReadStreamRecords ⟨["r1", "r2"], AbslStatus.ok⟩
        (fun _ => AbslStatus.internal "cb failed")).2.1 = ["r1", "r2"]) ∧
    ((readShardRecords ⟨none, 0, [("r1", 40), ("r2", 90)], AbslStatus.ok⟩ ⟨0, 100⟩
        (fun _ => AbslStatus.internal "cb failed")).1 =
      (readShardRecords ⟨none, 0, [("r1", 40), ("r2", 90)], AbslStatus.ok⟩ ⟨0, 100⟩
        (fun _ => AbslStatus.ok)).1 ∧
      (readShardRecords ⟨none, 0, [("r1", 40), ("r2", 90)], AbslStatus.ok⟩ ⟨0, 100⟩
        (fun _ => AbslStatus.internal "cb failed")).2 =
      (readShardRecords ⟨none, 0, [("r1", 40), ("r2", 90)], AbslStatus.ok⟩ ⟨0, 100⟩
        (fun _ => AbslStatus.ok)).2) ∧
    readStreamRecordsResult (([⟨0, 1000, 5⟩] : List ShardResult).map Except.ok ++
      Except.error (AbslStatus.internal "reader failed") :: []) =
      AbslStatus.internal "reader failed" := by
  refine ⟨?_, ?_, ?_⟩
  · exact (callback_failures_do_not_abort ⟨["r1", "r2"], AbslStatus.ok⟩
      ⟨none, 0, [("r1", 40), ("r2", 90)], AbslStatus.ok⟩ ⟨0, 100⟩
      (fun _ => AbslStatus.internal "cb failed") (fun _ => AbslStatus.ok)
      [] (AbslStatus.internal "reader failed") []).1
  · exact (callback_failures_do_not_abort ⟨["r1", "r2"], AbslStatus.ok⟩
      ⟨none, 0, [("r1", 40), ("r2", 90)], AbslStatus.ok⟩ ⟨0, 100⟩
      (fun _ => AbslStatus.internal "cb failed") (fun _ => AbslStatus.ok)
      [] (AbslStatus.internal "reader failed") []).2.1
  · exact (callback_failures_do_not_abort (⟨["r1", "r2"], AbslStatus.ok⟩ :
      SequentialStream String)
      ⟨none, 0, [("r1", 40), ("r2", 90)], AbslStatus.ok⟩ ⟨0, 100⟩
      (fun _ => AbslStatus.internal "cb failed") (fun _ => AbslStatus.ok)
      [⟨0, 1000, 5⟩] (AbslStatus.internal "reader failed") []).2.2
      (List.chain'_singleton _)

/-! ## UDF execution argument serialization (UdfClientImpl::ExecuteCode) -/

/-- A JSON document, the target of proto3 MessageToJsonString. -/
inductive Json where
  | null
  | bool (b : Bool)
  | num (n : Int)
  | str (s : String)
  | arr (elems : List Json)
  | obj (fields : List (String × Json))

/-- UDFArgument: a ListValue of tags and a Value data payload, both given
here by their proto3 JSON forms. -/
structure UDFArgument where
  tags : List Json
  data : Json

/-- UDFExecutionMetadata: udf_interface_version plus the request metadata. -/
structure UDFExecutionMetadata where
  udf_interface_version : Int
  request_metadata : List (String × Json)

/-- MessageToJsonString of a whole UDFArgument (tags and data together),
used when the argument has at least one tag. -/
def jsonOfArg (arg : UDFArgument) : Json :=
  Json.obj [("tags", Json.arr arg.tags), ("data", arg.data)]

/-- MessageToJsonString of UDFExecutionMetadata. -/
def jsonOfMetadata (m : UDFExecutionMetadata) : Json :=
  Json.obj [("udfInterfaceVersion", Json.num m.udf_interface_version),
    ("requestMetadata", Json.obj m.request_metadata)]

/-- The string_args construction in UdfClientImpl::ExecuteCode: set
udf_interface_version to 1 on the metadata, serialize it first, then for
each argument serialize only arg.data() when arg.tags().values() is empty
and the whole argument otherwise. -/
def buildUdfArguments (metadata : UDFExecutionMetadata)
    (arguments : List UDFArgument) : List Json :=
  jsonOfMetadata { metadata with udf_interface_version := 1 } ::
    arguments.map (fun arg => if arg.tags.isEmpty then arg.data else jsonOfArg arg)

/-- C4: the serialized invocation inputs consist of the metadata (with
udf_interface_version forced to 1) followed by one entry per argument, which
is the data field alone for an untagged argument and the whole argument
object for a tagged one. -/
theorem executeCode_serialization (metadata : UDFExecutionMetadata)
    (arguments : List UDFArgument) :
    (buildUdfArguments metadata arguments).length = arguments.length + 1 ∧
    (buildUdfArguments metadata arguments).head? =
      some (jsonOfMetadata
        { udf_interface_version := 1,
          request_metadata := metadata.request_metadata }) ∧
    ∀ i : Nat, (buildUdfArguments metadata arguments)[i + 1]? =
      (arguments[i]?).map
        (fun arg => if arg.tags.isEmpty then arg.data else jsonOfArg arg) := by
  refine ⟨by simp [buildUdfArguments], rfl, ?_⟩
  intro i
  simp [buildUdfArguments]

/-! ## V2 request handler (modelled from the spec) -/

/-- A partition of a V2 GetValues request: an id and its UDF arguments. -/
structure V2Partition where
  id : Int
  arguments : List UDFArgument

/-- A per-partition entry of the V2 response: either {id, string_output} or
{id, status {code, message}}. -/
inductive PartitionOutput where
  | stringOutput (id : Int) (out : String)
  | statusOutput (id : Int) (st : AbslStatus)
deriving Repr, DecidableEq

/-- Modelled from the spec: the per-partition dispatch of the request handler
(GetValuesV2Handler, whose implementation is not part of the source tree; only
its tests are). For each partition, execute_code is called; on success the
partition emits {id, string_output}, on failure {id, status {code, message}}
with the UDF error, and partitions are independent. -/
def handlePartitions (udf : V2Partition → Except AbslStatus String)
    (parts : List V2Partition) : List PartitionOutput :=
  parts.map fun p =>
    match udf p with
    | Except.ok out => PartitionOutput.stringOutput p.id out
    | Except.error e => PartitionOutput.statusOutput p.id e

/-- The outer transport view of one request: the gRPC code (0 = OK), the
BHTTP response code, and the per-partition outputs. -/
structure TransportResult where
  grpcCode : Nat
  bhttpCode : Nat
  outputs : List PartitionOutput
deriving Repr, DecidableEq

/-- The section 4.6 response code mapping of the BHTTP layer. -/
def bhttpCodeOf (s : AbslStatus) : Nat :=
  if s.code = 0 then 200
  else if s.code = 3 then 400
  else if s.code = 7 then 403
  else if s.code = 5 then 404
  else 500

/-- Modelled from the spec: the transport layer around the V2 handler. When
the HPKE/BHTTP envelope parses, the outer transport succeeds (gRPC OK, BHTTP
200) and UDF failures are carried per partition; an envelope failure maps to
the BHTTP code of its status. -/
def getValuesV2Transport (envelope : Except AbslStatus (List V2Partition))
    (udf : V2Partition → Except AbslStatus String) : TransportResult :=
  match envelope with
  | Except.error e => { grpcCode := 0, bhttpCode := bhttpCodeOf e, outputs := [] }
  | Except.ok parts =>
      { grpcCode := 0, bhttpCode := 200, outputs := handlePartitions udf parts }

/-- C5: when the envelope parses, the outer transport result is success (gRPC
OK and BHTTP 200) regardless of UDF failures, and each partition carries
{id, string_output} on UDF success and {id, status} with the UDF error
otherwise. -/
theorem udf_failure_does_not_fail_request
    (envelope : Except AbslStatus (List V2Partition))
    (udf : V2Partition → Except AbslStatus String)
    (parts : List V2Partition) (h : envelope = Except.ok parts) :
    (getValuesV2Transport envelope udf).grpcCode = 0 ∧
    (getValuesV2Transport envelope udf).bhttpCode = 200 ∧
    (getValuesV2Transport envelope udf).outputs = parts.map (fun p =>
      match udf p with
      | Except.ok out => PartitionOutput.stringOutput p.id out
      | Except.error e => PartitionOutput.statusOutput p.id e) := by
  subst h
  exact ⟨rfl, rfl, rfl⟩

/-- Witness for udf_failure_does_not_fail_request: one partition whose UDF
fails with Internal("UDF execution error") yields gRPC OK, BHTTP 200, and a
partition status with code 13, as in the handler tests. -/
theorem udf_failure_does_not_fail_request_witness :
    (getValuesV2Transport (Except.ok [⟨9, []⟩])
        (fun _ => Except.error (AbslStatus.internal "UDF execution error"))).grpcCode = 0 ∧
    (getValuesV2Transport (Except.ok [⟨9, []⟩])
        (fun _ => Except.error (AbslStatus.internal "UDF execution error"))).bhttpCode = 200 ∧
    (getValuesV2Transport (Except.ok [⟨9, []⟩])
        (fun _ => Except.error (AbslStatus.internal "UDF execution error"))).outputs =
      [PartitionOutput.statusOutput 9 ⟨13, "UDF execution error"⟩] := by
  exact udf_failure_does_not_fail_request (Except.ok [⟨9, []⟩])
    (fun _ => Except.error (AbslStatus.internal "UDF execution error")) [⟨9, []⟩] rfl

/-! ## getValues UDF hook (get_values_hook.cc, GetValuesHookImpl) -/

/-- The output encoding selected at hook construction. -/
inductive OutputType where
  | kString
  | kBinary
deriving Repr, DecidableEq

/-- The FunctionBindingIoProto input as seen by the hook: either the
input_list_of_string field is set, or the input is something else
(has_input_list_of_string() is false). -/
inductive HookInput where
  | listOfString (keys : List String)
  | other

/-- One value of an InternalLookupResponse kv_pairs entry: a value string or
a per-key status. -/
inductive SingleLookupResult where
  | value (v : String)
  | failure (st : AbslStatus)

/-- InternalLookupResponse: the kv_pairs map. -/
structure InternalLookupResponse where
  kv_pairs : List (String × SingleLookupResult)

/-- A Value message of the binary BinaryGetValuesResponse: optional status
and optional data, as set by SetOutputAsBytes. -/
structure BinaryValue where
  status : Option AbslStatus
  data : Option String

/-- BinaryGetValuesResponse: kv_pairs plus an overall status. -/
structure BinaryGetValuesResponse where
  kv_pairs : List (String × BinaryValue)
  status : AbslStatus

/-- What the hook writes into the FunctionBindingIoProto: output_string
(holding a JSON document) or output_bytes (holding a serialized
BinaryGetValuesResponse). -/
inductive HookOutput where
  | stringOut (j : Json)
  | bytesOut (r : BinaryGetValuesResponse)

/-- SetStatusAsString: a JSON object {code, message}. -/
def setStatusAsString (code : Nat) (msg : String) : HookOutput :=
  HookOutput.stringOut (Json.obj [("code", Json.num code), ("message", Json.str msg)])

/-- SetStatusAsBytes: a BinaryGetValuesResponse holding only the status. -/
def setStatusAsBytes (code : Nat) (msg : String) : HookOutput :=
  HookOutput.bytesOut { kv_pairs := [], status := ⟨code, msg⟩ }

/-- GetValuesHookImpl::SetStatus: dispatch on the output type selected at
construction. -/
def setStatus (ot : OutputType) (code : Nat) (msg : String) : HookOutput :=
  match ot with
  | OutputType.kString => setStatusAsString code msg
  | OutputType.kBinary => setStatusAsBytes code msg

/-- The proto3 JSON form of one kv_pairs entry value. -/
def jsonOfSingleLookupResult : SingleLookupResult → Json
  | SingleLookupResult.value v => Json.obj [("value", Json.str v)]
  | SingleLookupResult.failure st =>
      Json.obj [("status", Json.obj [("code", Json.num st.code),
        ("message", Json.str st.message)])]

/-- SetOutputAsString: the response serialized to JSON with an injected
overall status {code: 0, message: "ok"}. -/
def setOutputAsString (resp : InternalLookupResponse) : HookOutput :=
  HookOutput.stringOut (Json.obj
    [("kvPairs", Json.obj (resp.kv_pairs.map
        (fun kv => (kv.1, jsonOfSingleLookupResult kv.2)))),
     ("status", Json.obj [("code", Json.num 0), ("message", Json.str "ok")])])

/-- SetOutputAsBytes: each entry keeps its status or its value as data, and
the overall status is {0, "ok"}. -/
def setOutputAsBytes (resp : InternalLookupResponse) : HookOutput :=
  HookOutput.bytesOut
    { kv_pairs := resp.kv_pairs.map (fun kv =>
        (kv.1, match kv.2 with
          | SingleLookupResult.value s => { status := none, data := some s }
          | SingleLookupResult.failure st => { status := some st, data := none })),
      status := ⟨0, "ok"⟩ }

/-- GetValuesHookImpl::SetOutput: dispatch on the output type. -/
def setOutput (ot : OutputType) (resp : InternalLookupResponse) : HookOutput :=
  match ot with
  | OutputType.kString => setOutputAsString resp
  | OutputType.kBinary => setOutputAsBytes resp

/-- GetValuesHookImpl::operator(): if lookup_ is still null, report Internal
"getValues has not been initialized yet"; if the input is not a list of
strings, report InvalidArgument "getValues input must be list of strings";
otherwise call the lookup and encode its result or error. The second
component records the keys a lookup was performed on (none = no lookup). -/
def getValuesHookCall (ot : OutputType)
    (lookup : Option (List String → Except AbslStatus InternalLookupResponse))
    (input : HookInput) : HookOutput × Option (List String) :=
  match lookup with
  | none => (setStatus ot 13 "getValues has not been initialized yet", none)
  | some lk =>
    match input with
    | HookInput.other =>
        (setStatus ot 3 "getValues input must be list of strings", none)
    | HookInput.listOfString keys =>
      match lk keys with
      | Except.error e => (setStatus ot e.code e.message, some keys)
      | Except.ok resp => (setOutput ot resp, some keys)

/-- GetValuesHookImpl::FinishInit: installs the lookup only when none has
been installed yet. -/
def finishInit {L : Type}
    (current : Option L) (lookup : L) : Option L :=
  match current with
  | none => some lookup
  | some _ => current

/-- C7: an initialized hook given an input that is not a list of strings
returns normally with status {code: 3, message: "getValues input must be
list of strings"} in the encoding selected at construction, and performs no
lookup. -/
theorem getValuesHook_bad_input
    (lk : List String → Except AbslStatus InternalLookupResponse) :
    (∀ ot, getValuesHookCall ot (some lk) HookInput.other =
      (setStatus ot 3 "getValues input must be list of strings", none)) ∧
    getValuesHookCall OutputType.kString (some lk) HookInput.other =
      (HookOutput.stringOut (Json.obj [("code", Json.num 3),
        ("message", Json.str "getValues input must be list of strings")]), none) ∧
    getValuesHookCall OutputType.kBinary (some lk) HookInput.other =
      (HookOutput.bytesOut
        { kv_pairs := [],
          status := ⟨3, "getValues input must be list of strings"⟩ }, none) := by
  exact ⟨fun ot => rfl, rfl, rfl⟩

/-- C9: an uninitialized hook returns Internal {13, "getValues has not been
initialized yet"} in the selected encoding with no lookup performed, and
FinishInit installs a lookup only when none is present, so a second
FinishInit keeps the first lookup. -/
theorem getValuesHook_uninitialized {L : Type} (input : HookInput)
    (l₁ l₂ : L) :
    (∀ ot, getValuesHookCall ot none input =
      (setStatus ot 13 "getValues has not been initialized yet", none)) ∧
    getValuesHookCall OutputType.kString none input =
      (HookOutput.stringOut (Json.obj [("code", Json.num 13),
        ("message", Json.str "getValues has not been initialized yet")]), none) ∧
    getValuesHookCall OutputType.kBinary none input =
      (HookOutput.bytesOut
        { kv_pairs := [],
          status := ⟨13, "getValues has not been initialized yet"⟩ }, none) ∧
    finishInit (finishInit (none : Option L) l₁) l₂ = some l₁ := by
  exact ⟨fun ot => rfl, rfl, rfl, rfl⟩

/-! ## V1 adapter ProcessKeyValues (get_values_adapter.cc) -/

/-- A google.protobuf.Value as far as ProcessKeyValues observes it: either a
string value (has_string_value() true) or any other payload. -/
inductive ProtoValue where
  | stringValue (s : String)
  | otherValue (j : Json)

/-- One value of a KeyGroupOutput key_values entry: its Value field. -/
structure KeyValuesEntry where
  value : ProtoValue

/-- The fields map of the google.protobuf.Struct the adapter fills in,
observed as a key to value mapping. -/
def StructFields : Type := String → Option ProtoValue

/-- Map operator[] followed by assignment: set one field. -/
def StructFields.set (st : StructFields) (k : String) (v : ProtoValue) :
    StructFields :=
  fun k' => if k' = k then some v else st k'

/-- ProcessKeyValues of the V1 adapter: for each key-value pair, if the value
is a string, try JsonStringToMessage into a Value proto and store it on
success; then unconditionally overwrite the same key with the raw value.
The JSON parse is passed in as a function. -/
def processKeyValues (parse : String → Except AbslStatus ProtoValue)
    (key_values : List (String × KeyValuesEntry)) (result : StructFields) :
    StructFields :=
  key_values.foldl (fun st kv =>
    let st1 := match kv.2.value with
      | ProtoValue.stringValue s =>
        match parse s with
        | Except.ok value_proto => st.set kv.1 value_proto
        | Except.error _ => st
      | ProtoValue.otherValue _ => st
    st1.set kv.1 kv.2.value) result

/-- Writing a key twice keeps only the last write. -/
theorem StructFields.set_set (st : StructFields) (k : String)
    (v w : ProtoValue) : (st.set k v).set k w = st.set k w := by
  funext k'
  unfold StructFields.set
  by_cases h : k' = k
  · rw [if_pos h, if_pos h]
  · rw [if_neg h, if_neg h, if_neg h]

/-- C8: the parse-and-store step of ProcessKeyValues is unconditionally
overwritten by the raw value, so the result equals the plain fold that writes
each raw value, independently of the parse function; in particular a string
value ends up stored as that raw string. -/
theorem processKeyValues_overwrites_parse
    (parse : String → Except AbslStatus ProtoValue)
    (key_values : List (String × KeyValuesEntry)) (result : StructFields) :
    processKeyValues parse key_values result =
      key_values.foldl (fun st kv => st.set kv.1 kv.2.value) result ∧
    ∀ k s, processKeyValues parse [(k, ⟨ProtoValue.stringValue s⟩)] result k =
      some (ProtoValue.stringValue s) := by
  constructor
  · induction key_values generalizing result with
    | nil => rfl
    | cons kv rest ih =>
      show processKeyValues parse (kv :: rest) result =
        (kv :: rest).foldl (fun st kv => st.set kv.1 kv.2.value) result
      unfold processKeyValues
      rw [List.foldl_cons, List.foldl_cons]
      have hstep : (let st1 := match kv.2.value with
          | ProtoValue.stringValue s =>
            match parse s with
            | Except.ok value_proto => result.set kv.1 value_proto
            | Except.error _ => result
          | ProtoValue.otherValue _ => result
        st1.set kv.1 kv.2.value) = result.set kv.1 kv.2.value := by
        match hv : kv.2.value with
        | ProtoValue.stringValue s =>
          show (match parse s with
              | Except.ok value_proto => result.set kv.1 value_proto
              | Except.error _ => result).set kv.1 (ProtoValue.stringValue s) =
            result.set kv.1 (ProtoValue.stringValue s)
          cases hps : parse s with
          | ok vp =>
            show (result.set kv.1 vp).set kv.1 (ProtoValue.stringValue s) =
              result.set kv.1 (ProtoValue.stringValue s)
            rw [StructFields.set_set]
          | error a => rfl
        | ProtoValue.otherValue j => rfl
      rw [hstep]
      exact ih (result.set kv.1 kv.2.value)
  · intro k s
    show (let st1 := match parse s with
        | Except.ok value_proto => result.set k value_proto
        | Except.error _ => result
      st1.set k (ProtoValue.stringValue s)) k = some (ProtoValue.stringValue s)
    cases hps : parse s with
    | ok vp =>
      show ((result.set k vp).set k (ProtoValue.stringValue s)) k =
        some (ProtoValue.stringValue s)
      unfold StructFields.set
      rw [if_pos rfl]
    | error a =>
      show ((result.set k (ProtoValue.stringValue s))) k =
        some (ProtoValue.stringValue s)
      unfold StructFields.set
      rw [if_pos rfl]
